import Mathlib

/-!
Verification of the feature-flag evaluator of the jobpay frontend
(`FeatureFlagManager`, `parseFeatureFlags`, `getEnvironmentFlags`,
`FeatureFlagSchema` and the rollout hash `hashUserId`).

The JavaScript semantics are embedded shallowly:

* a JavaScript object with boolean properties is a `List (String × Bool)`
  in insertion order (keys of real objects are unique, and every object the
  module builds has unique keys); property read is `List.lookup` with a
  default, property write replaces the entry in place or appends;
* `process.env` is a function `String → Option String`;
* machine integers are `Int` with explicit two's-complement truncation
  (`toInt32`) exactly where JavaScript truncates (`<<`, `&`);
* a user identifier string is its list of UTF-16 code units (`List Nat`);
  an optional parameter is an `Option`, and JavaScript string truthiness
  (`!userId`) is falsity of `none` and of the empty string.
-/

namespace JobpayFlags

/-- JavaScript ToInt32: truncate an integer to signed 32-bit
two's-complement. -/
def toInt32 (n : Int) : Int :=
  (n + 2 ^ 31) % 2 ^ 32 - 2 ^ 31

/-- One iteration of the loop body of `FeatureFlagManager.hashUserId`:
`hash = (hash << 5) - hash + char; hash = hash & hash;`.  In JavaScript the
shift `hash << 5` itself truncates its result to a signed 32-bit integer,
the subtraction and addition are exact double arithmetic at these
magnitudes, and `hash & hash` truncates again. -/
def hashStep (hash : Int) (char : Nat) : Int :=
  toInt32 (toInt32 (hash * 2 ^ 5) - hash + (char : Int))

/-- `FeatureFlagManager.hashUserId`: fold the loop body over the code units
of the identifier starting from `0`, then `Math.abs`. -/
def hashUserId (userId : List Nat) : Nat :=
  (userId.foldl hashStep 0).natAbs

/-- The accumulator step exactly as the specification words it: accumulator
shifted left by 5, minus the accumulator, plus the character code, truncated
once to a 32-bit signed integer with two's-complement wraparound. -/
def specHashStep (acc : Int) (char : Nat) : Int :=
  toInt32 (acc * 2 ^ 5 - acc + (char : Int))

/-- The hash as described by the specification: fold `specHashStep` from 0
and take the absolute value of the final accumulator. -/
def specHashUserId (userId : List Nat) : Nat :=
  (userId.foldl specHashStep 0).natAbs

/-- A JavaScript object with boolean-valued properties, as its list of
(key, value) entries in insertion order. -/
abbrev FlagObj := List (String × Bool)

/-- JavaScript property assignment `obj[k] = v` on an object with unique
keys: replace the entry for `k` in place, or append a new entry. -/
def setKey : FlagObj → String → Bool → FlagObj
  | [], k, v => [(k, v)]
  | p :: ps, k, v => if p.1 = k then (k, v) :: ps else p :: setKey ps k v

/-- The keys of `FeatureFlagSchema.shape`, in declaration order. -/
def flagNames : List String :=
  ["ENABLE_PWA", "ENABLE_ANALYTICS", "ENABLE_ERROR_MONITORING",
   "ENABLE_DEVTOOLS", "ENABLE_GOOGLE_AUTH", "ENABLE_LINKEDIN_AUTH",
   "ENABLE_TWO_FACTOR_AUTH", "ENABLE_PAYMENTS", "ENABLE_PREMIUM_FEATURES",
   "ENABLE_JOB_ALERTS", "ENABLE_CHAT_SUPPORT", "ENABLE_VIDEO_INTERVIEWS",
   "ENABLE_DARK_MODE", "ENABLE_ANIMATIONS", "ENABLE_ACCESSIBILITY_MODE",
   "ENABLE_MOBILE_APP_BANNER", "ENABLE_SERVICE_WORKER",
   "ENABLE_IMAGE_OPTIMIZATION", "ENABLE_PREFETCHING", "ENABLE_MOCK_DATA",
   "ENABLE_DEBUG_MODE", "ENABLE_PERFORMANCE_MONITORING"]

/-- The `.default(...)` value of each flag in `FeatureFlagSchema`. -/
def flagDefault : String → Bool
  | "ENABLE_PWA" => true
  | "ENABLE_ANALYTICS" => false
  | "ENABLE_ERROR_MONITORING" => false
  | "ENABLE_DEVTOOLS" => false
  | "ENABLE_GOOGLE_AUTH" => false
  | "ENABLE_LINKEDIN_AUTH" => false
  | "ENABLE_TWO_FACTOR_AUTH" => false
  | "ENABLE_PAYMENTS" => false
  | "ENABLE_PREMIUM_FEATURES" => false
  | "ENABLE_JOB_ALERTS" => true
  | "ENABLE_CHAT_SUPPORT" => false
  | "ENABLE_VIDEO_INTERVIEWS" => false
  | "ENABLE_DARK_MODE" => true
  | "ENABLE_ANIMATIONS" => true
  | "ENABLE_ACCESSIBILITY_MODE" => true
  | "ENABLE_MOBILE_APP_BANNER" => false
  | "ENABLE_SERVICE_WORKER" => true
  | "ENABLE_IMAGE_OPTIMIZATION" => true
  | "ENABLE_PREFETCHING" => true
  | "ENABLE_MOCK_DATA" => false
  | "ENABLE_DEBUG_MODE" => false
  | "ENABLE_PERFORMANCE_MONITORING" => false
  | _ => false

/-- `FeatureFlagManager.isEnabled`: `this.flags[flag] ?? false`. -/
def isEnabled (flags : FlagObj) (flag : String) : Bool :=
  (flags.lookup flag).getD false

/-- `FeatureFlagManager.updateFlag`: `this.flags = { ...this.flags,
[flag]: value }` — as a value, the old object with the named property
overwritten. -/
def updateFlag (flags : FlagObj) (flag : String) (value : Bool) : FlagObj :=
  setKey flags flag value

/-- `FeatureFlagManager.getRolloutPercentage`: `rolloutConfig[flag] ?? 100`
over the static three-entry table. -/
def getRolloutPercentage (flag : String) : Nat :=
  if flag = "ENABLE_PREMIUM_FEATURES" then 25
  else if flag = "ENABLE_VIDEO_INTERVIEWS" then 50
  else if flag = "ENABLE_CHAT_SUPPORT" then 75
  else 100

/-- JavaScript truthiness of the optional `userId` string: `undefined` and
the empty string are falsy. -/
def truthyUserId : Option (List Nat) → Bool
  | none => false
  | some u => !u.isEmpty

/-- `FeatureFlagManager.isEnabledForUser`: kill switch on the base flag,
fall back to the base value when no (truthy) user id is supplied, otherwise
compare the user's hash bucket with the rollout percentage. -/
def isEnabledForUser (flags : FlagObj) (flag : String)
    (userId : Option (List Nat)) : Bool :=
  let baseEnabled := isEnabled flags flag
  if !baseEnabled || !truthyUserId userId then baseEnabled
  else
    match userId with
    | none => baseEnabled
    | some uid => decide (hashUserId uid % 100 < getRolloutPercentage flag)

/-- JavaScript `a || b` on possibly-undefined strings: `undefined` and the
empty string fall through to `b`. -/
def jsOrString (a b : Option String) : Option String :=
  match a with
  | none => b
  | some s => if s = "" then b else some s

/-- `getEnvironmentFlags`: the preset bundle of flag overrides selected by
`NODE_ENV`, with staging recognized inside the production branch via
`NEXT_PUBLIC_ENVIRONMENT || NODE_ENV`. -/
def getEnvironmentFlags (penv : String → Option String) : FlagObj :=
  let env := penv "NODE_ENV"
  let customEnv := jsOrString (penv "NEXT_PUBLIC_ENVIRONMENT") env
  if env = some "development" then
    [("ENABLE_DEVTOOLS", true), ("ENABLE_DEBUG_MODE", true),
     ("ENABLE_MOCK_DATA", true), ("ENABLE_ERROR_MONITORING", false),
     ("ENABLE_ANALYTICS", false)]
  else if env = some "production" then
    if customEnv = some "staging" then
      [("ENABLE_DEVTOOLS", false), ("ENABLE_DEBUG_MODE", false),
       ("ENABLE_MOCK_DATA", false), ("ENABLE_ERROR_MONITORING", true),
       ("ENABLE_ANALYTICS", true), ("ENABLE_PERFORMANCE_MONITORING", true)]
    else
      [("ENABLE_DEVTOOLS", false), ("ENABLE_DEBUG_MODE", false),
       ("ENABLE_MOCK_DATA", false), ("ENABLE_ERROR_MONITORING", true),
       ("ENABLE_ANALYTICS", true), ("ENABLE_PERFORMANCE_MONITORING", true),
       ("ENABLE_SERVICE_WORKER", true), ("ENABLE_IMAGE_OPTIMIZATION", true),
       ("ENABLE_PREFETCHING", true)]
  else
    [("ENABLE_DEVTOOLS", false), ("ENABLE_DEBUG_MODE", true),
     ("ENABLE_MOCK_DATA", true), ("ENABLE_ERROR_MONITORING", false),
     ("ENABLE_ANALYTICS", false)]

/-- The environment-variable value consulted for flag `k` in
`parseFeatureFlags`:
`process.env[NEXT_PUBLIC_FEATURE_k] || process.env[NEXT_PUBLIC_k]`. -/
def envVarValue (penv : String → Option String) (k : String) : Option String :=
  jsOrString (penv (String.append "NEXT_PUBLIC_FEATURE_" k))
    (penv (String.append "NEXT_PUBLIC_" k))

/-- The `overrides` object of `parseFeatureFlags`: one entry per schema key
whose consulted environment-variable value is defined, with the value
`envValue === 'true'`. -/
def overridesObj (penv : String → Option String) : FlagObj :=
  flagNames.filterMap fun k => (envVarValue penv k).map fun v => (k, v == "true")

/-- JavaScript object spread `{ ...a, ...b }` as in-order property
assignment of the entries of `b` over a copy of `a`. -/
def spreadMerge (a b : FlagObj) : FlagObj :=
  b.foldl (fun acc kv => setKey acc kv.1 kv.2) a

/-- `FeatureFlagSchema.parse` on an all-boolean input object: one entry per
schema key, taking the provided value when present and the schema default
otherwise, and stripping unknown keys. -/
def zodParse (merged : FlagObj) : FlagObj :=
  flagNames.map fun k => (k, (merged.lookup k).getD (flagDefault k))

/-- `parseFeatureFlags`: tier bundle, then environment-variable overrides
spread on top, then schema validation filling defaults. -/
def parseFeatureFlags (penv : String → Option String) : FlagObj :=
  zodParse (spreadMerge (getEnvironmentFlags penv) (overridesObj penv))

/-- The per-flag override exactly as the claim words it: a present
environment-variable value (empty or not) equal to `"true"` yields `true`,
any other present value yields `false`, and only absence of both consulted
variables yields no override. -/
def claimEnvOverride (penv : String → Option String) (k : String) :
    Option Bool :=
  match penv (String.append "NEXT_PUBLIC_FEATURE_" k) with
  | some v => some (v == "true")
  | none =>
    match penv (String.append "NEXT_PUBLIC_" k) with
    | some v => some (v == "true")
    | none => none

/-- The initial value of flag `k` as the claim describes the layering:
schema default, overridden by the tier bundle, overridden by
`claimEnvOverride`. -/
def claimLayeredValue (penv : String → Option String) (k : String) : Bool :=
  match claimEnvOverride penv k with
  | some b => b
  | none =>
    match (getEnvironmentFlags penv).lookup k with
    | some b => b
    | none => flagDefault k

/-- The initial value of flag `k` as the code actually layers it: schema
default, overridden by the tier bundle, overridden by the
truthiness-mediated environment-variable override. -/
def codeLayeredValue (penv : String → Option String) (k : String) : Bool :=
  match envVarValue penv k with
  | some v => v == "true"
  | none =>
    match (getEnvironmentFlags penv).lookup k with
    | some b => b
    | none => flagDefault k

/-- A concrete process environment: only `NEXT_PUBLIC_FEATURE_ENABLE_PWA`
is set, to the empty string. -/
def penvEmptyOverride : String → Option String := fun s =>
  if s = "NEXT_PUBLIC_FEATURE_ENABLE_PWA" then some "" else none

/-- A sequence of `updateFlag` calls applied in order. -/
def applyUpdates (flags : FlagObj) (updates : List (String × Bool)) : FlagObj :=
  updates.foldl (fun st u => updateFlag st u.1 u.2) flags

/-- The manager together with a heap of flag objects: `heap` holds every
flag object ever allocated (a reference is an index) and `flagsRef` is the
reference held by the private static field `flags`. -/
structure ManagerState where
  heap : List FlagObj
  flagsRef : Nat

/-- The flag object the manager currently references. -/
def readFlags (s : ManagerState) : FlagObj :=
  s.heap.getD s.flagsRef []

/-- `FeatureFlagManager.isEnabled` read through the heap. -/
def mgrIsEnabled (s : ManagerState) (flag : String) : Bool :=
  isEnabled (readFlags s) flag

/-- `FeatureFlagManager.getAllFlags`: `{ ...this.flags }` allocates a fresh
object copying the current entries and returns a reference to it; the
manager keeps referencing its own object. -/
def getAllFlags (s : ManagerState) : Nat × ManagerState :=
  (s.heap.length, ⟨s.heap ++ [readFlags s], s.flagsRef⟩)

/-- A caller mutating a returned object: property assignment through an
arbitrary reference `r`. -/
def writeObj (s : ManagerState) (r : Nat) (k : String) (v : Bool) :
    ManagerState :=
  ⟨s.heap.set r (setKey (s.heap.getD r []) k v), s.flagsRef⟩

/-! Helper lemmas about association-list objects. -/

theorem lookup_setKey_self (o : FlagObj) (k : String) (v : Bool) :
    (setKey o k v).lookup k = some v := by
  induction o with
  | nil => simp [setKey, List.lookup]
  | cons p ps ih =>
    obtain ⟨a, b⟩ := p
    by_cases h : a = k
    · simp [setKey, h, List.lookup]
    · simp only [setKey, h, if_false, List.lookup]
      have hne : (k == a) = false := by
        simp [Ne.symm h]
      simp [hne, ih]

theorem lookup_setKey_ne (o : FlagObj) (k : String) (v : Bool) (j : String)
    (h : j ≠ k) : (setKey o k v).lookup j = o.lookup j := by
  have hbeq : (j == k) = false := by simp [h]
  induction o with
  | nil => simp [setKey, List.lookup, hbeq]
  | cons p ps ih =>
    obtain ⟨a, b⟩ := p
    by_cases ha : a = k
    · subst ha
      simp [setKey, List.lookup, hbeq]
    · simp only [setKey, ha, if_false, List.lookup]
      by_cases hj : j = a
      · simp [hj]
      · have : (j == a) = false := by simp [hj]
        simp [this, ih]

theorem lookup_of_keys_ne (o : FlagObj) (j : String)
    (h : ∀ p ∈ o, p.1 ≠ j) : o.lookup j = none := by
  induction o with
  | nil => simp [List.lookup]
  | cons p ps ih =>
    obtain ⟨a, b⟩ := p
    have ha : a ≠ j := h (a, b) (by simp)
    have : (j == a) = false := by simp [Ne.symm ha]
    simp only [List.lookup, this]
    exact ih fun q hq => h q (by simp [hq])

theorem lookup_isSome_setKey (o : FlagObj) (k : String) (v : Bool)
    (j : String) (h : (o.lookup j).isSome = true) :
    ((setKey o k v).lookup j).isSome = true := by
  by_cases hj : j = k
  · subst hj
    simp [lookup_setKey_self]
  · rw [lookup_setKey_ne o k v j hj]
    exact h

theorem lookup_map_keyed (ks : List String) (f : String → Bool)
    (j : String) :
    (ks.map fun k => (k, f k)).lookup j
      = if j ∈ ks then some (f j) else none := by
  induction ks with
  | nil => simp [List.lookup]
  | cons k ks ih =>
    by_cases h : j = k
    · subst h
      simp [List.lookup]
    · have : (j == k) = false := by simp [h]
      simp [List.lookup, this, ih, List.mem_cons, h]

theorem lookup_filterMap_keyed (ks : List String)
    (g : String → Option String) (f : String → String → Bool)
    (j : String) (hnd : ks.Nodup) :
    (ks.filterMap fun k => (g k).map fun v => (k, f k v)).lookup j
      = if j ∈ ks then (g j).map (f j) else none := by
  induction ks with
  | nil => simp [List.lookup]
  | cons k ks ih =>
    obtain ⟨hk, hks⟩ := List.nodup_cons.mp hnd
    by_cases h : j = k
    · subst h
      cases hgj : g j with
      | none =>
        have hnone : (ks.filterMap fun k => (g k).map fun v => (k, f k v)).lookup j = none := by
          rw [ih hks]
          simp [hk]
        simp [List.filterMap_cons, hgj, hnone]
      | some v =>
        simp [List.filterMap_cons, hgj, List.lookup]
    · have hne : (j == k) = false := by simp [h]
      cases hgk : g k with
      | none =>
        simp [List.filterMap_cons, hgk, ih hks, List.mem_cons, h]
      | some v =>
        simp [List.filterMap_cons, hgk, List.lookup, hne, ih hks,
          List.mem_cons, h]

theorem lookup_spreadMerge (b : FlagObj) : ∀ (a : FlagObj) (j : String),
    (b.map Prod.fst).Nodup →
    (spreadMerge a b).lookup j
      = match b.lookup j with
        | some v => some v
        | none => a.lookup j := by
  induction b with
  | nil => intro a j _; simp [spreadMerge, List.lookup]
  | cons kv bs ih =>
    intro a j hnd
    obtain ⟨k0, v0⟩ := kv
    simp only [List.map_cons, List.nodup_cons] at hnd
    obtain ⟨hk0, hbs⟩ := hnd
    have hstep : spreadMerge a ((k0, v0) :: bs) = spreadMerge (setKey a k0 v0) bs := rfl
    rw [hstep, ih (setKey a k0 v0) j hbs]
    by_cases h : j = k0
    · subst h
      have hnone : bs.lookup j = none := by
        apply lookup_of_keys_ne
        intro p hp hpj
        exact hk0 (hpj ▸ List.mem_map_of_mem Prod.fst hp)
      simp [hnone, List.lookup, lookup_setKey_self]
    · have hne : (j == k0) = false := by simp [h]
      rw [lookup_setKey_ne a k0 v0 j h]
      simp only [List.lookup, hne]

theorem keys_filterMap_keyed_sublist (ks : List String)
    (g : String → Option String) (f : String → String → Bool) :
    List.Sublist ((ks.filterMap fun k => (g k).map fun v => (k, f k v)).map Prod.fst) ks := by
  induction ks with
  | nil => simp
  | cons k ks ih =>
    cases hgk : g k with
    | none =>
      simp only [List.filterMap_cons, hgk, Option.map_none]
      exact ih.cons k
    | some v =>
      simp only [List.filterMap_cons, hgk, Option.map_some, List.map_cons]
      exact ih.cons₂ k

theorem flagNames_nodup : flagNames.Nodup := by decide

/-! Helper lemmas about the 32-bit arithmetic of the rollout hash. -/

theorem toInt32_eq_of_emod (a b : Int) (h : a % 2 ^ 32 = b % 2 ^ 32) :
    toInt32 a = toInt32 b := by
  unfold toInt32
  omega

theorem hashStep_eq_specHashStep : hashStep = specHashStep := by
  funext h c
  unfold hashStep specHashStep
  apply toInt32_eq_of_emod
  unfold toInt32
  omega

theorem getRolloutPercentage_pos (flag : String) :
    0 < getRolloutPercentage flag := by
  unfold getRolloutPercentage
  repeat' split
  all_goals norm_num

/-- C1: for every user identifier, `hashUserId` equals the absolute value of
the accumulator obtained by folding `acc ↦ toInt32 (acc <<< 5 - acc + code)`
over the character codes (two's-complement 32-bit wraparound after each
step), and for a base-enabled flag with a supplied user identifier
`isEnabledForUser` compares this value modulo 100 against the rollout
percentage. -/
theorem c1_hash_algorithm (s : List Nat) (flags : FlagObj) (flag : String)
    (hbase : isEnabled flags flag = true) (hs : s ≠ []) :
    hashUserId s = specHashUserId s ∧
    isEnabledForUser flags flag (some s) =
      decide (hashUserId s % 100 < getRolloutPercentage flag) := by
  constructor
  · unfold hashUserId specHashUserId
    rw [hashStep_eq_specHashStep]
  · have ht : truthyUserId (some s) = true := by
      simp [truthyUserId, List.isEmpty_iff, hs]
    simp [isEnabledForUser, hbase, ht]

/-- Witness for C1 at the identifier "user-0001" and a base-enabled
`ENABLE_PREMIUM_FEATURES`. -/
theorem c1_hash_algorithm_witness :
    hashUserId [117, 115, 101, 114, 45, 48, 48, 48, 49] =
      specHashUserId [117, 115, 101, 114, 45, 48, 48, 48, 49] ∧
    isEnabledForUser [("ENABLE_PREMIUM_FEATURES", true)]
        "ENABLE_PREMIUM_FEATURES"
        (some [117, 115, 101, 114, 45, 48, 48, 48, 49]) =
      decide (hashUserId [117, 115, 101, 114, 45, 48, 48, 48, 49] % 100 <
        getRolloutPercentage "ENABLE_PREMIUM_FEATURES") :=
  c1_hash_algorithm [117, 115, 101, 114, 45, 48, 48, 48, 49]
    [("ENABLE_PREMIUM_FEATURES", true)] "ENABLE_PREMIUM_FEATURES"
    (by decide) (by decide)

/-- C2: whenever the base flag reads disabled, `isEnabledForUser` returns
`false` for every optional user identifier — the base flag is a kill
switch. -/
theorem c2_kill_switch (flags : FlagObj) (flag : String)
    (u : Option (List Nat)) (h : isEnabled flags flag = false) :
    isEnabledForUser flags flag u = false := by
  simp [isEnabledForUser, h]

/-- Witness for C2 on an empty flag object. -/
theorem c2_kill_switch_witness :
    isEnabledForUser [] "ENABLE_ANALYTICS" none = false :=
  c2_kill_switch [] "ENABLE_ANALYTICS" none (by decide)

/-- C3: for a base-enabled flag and a supplied user identifier,
`isEnabledForUser` returns `true` iff the user's hash modulo 100 is
strictly below the rollout percentage; the static table maps
`ENABLE_PREMIUM_FEATURES`, `ENABLE_VIDEO_INTERVIEWS`, `ENABLE_CHAT_SUPPORT`
to 25, 50, 75, every other flag has percentage 100 and is therefore on for
every user identifier. -/
theorem c3_rollout_comparison (flags : FlagObj) (flag : String)
    (u : List Nat) (hbase : isEnabled flags flag = true) :
    (isEnabledForUser flags flag (some u) = true ↔
      hashUserId u % 100 < getRolloutPercentage flag) ∧
    getRolloutPercentage "ENABLE_PREMIUM_FEATURES" = 25 ∧
    getRolloutPercentage "ENABLE_VIDEO_INTERVIEWS" = 50 ∧
    getRolloutPercentage "ENABLE_CHAT_SUPPORT" = 75 ∧
    (flag ∉ ["ENABLE_PREMIUM_FEATURES", "ENABLE_VIDEO_INTERVIEWS",
        "ENABLE_CHAT_SUPPORT"] →
      getRolloutPercentage flag = 100 ∧
      isEnabledForUser flags flag (some u) = true) := by
  have hiff : isEnabledForUser flags flag (some u) = true ↔
      hashUserId u % 100 < getRolloutPercentage flag := by
    cases u with
    | nil =>
      have h0 : hashUserId [] = 0 := rfl
      simp [isEnabledForUser, hbase, truthyUserId, h0,
        getRolloutPercentage_pos flag]
    | cons c cs =>
      simp [isEnabledForUser, hbase, truthyUserId]
  refine ⟨hiff, rfl, rfl, rfl, ?_⟩
  intro hmem
  simp only [List.mem_cons, List.not_mem_nil, or_false] at hmem
  push_neg at hmem
  obtain ⟨h1, h2, h3⟩ := hmem
  have hp : getRolloutPercentage flag = 100 := by
    simp [getRolloutPercentage, h1, h2, h3]
  refine ⟨hp, hiff.mpr ?_⟩
  rw [hp]
  exact Nat.mod_lt _ (by norm_num)

/-- Witness for C3 at a base-enabled flag outside the rollout table. -/
theorem c3_rollout_comparison_witness :
    (isEnabledForUser [("ENABLE_PWA", true)] "ENABLE_PWA" (some [97]) = true ↔
      hashUserId [97] % 100 < getRolloutPercentage "ENABLE_PWA") ∧
    getRolloutPercentage "ENABLE_PREMIUM_FEATURES" = 25 ∧
    getRolloutPercentage "ENABLE_VIDEO_INTERVIEWS" = 50 ∧
    getRolloutPercentage "ENABLE_CHAT_SUPPORT" = 75 ∧
    ("ENABLE_PWA" ∉ ["ENABLE_PREMIUM_FEATURES", "ENABLE_VIDEO_INTERVIEWS",
        "ENABLE_CHAT_SUPPORT"] →
      getRolloutPercentage "ENABLE_PWA" = 100 ∧
      isEnabledForUser [("ENABLE_PWA", true)] "ENABLE_PWA" (some [97]) = true) :=
  c3_rollout_comparison [("ENABLE_PWA", true)] "ENABLE_PWA" [97] (by decide)

/-- C4: `isEnabled` is total — a flag name carried by no entry of the flag
object reads `false`, and a flag name stored with value `b` reads `b`. -/
theorem c4_isEnabled_total (flags : FlagObj) (flag : String) :
    ((∀ b, (flag, b) ∉ flags) → isEnabled flags flag = false) ∧
    (∀ b, flags.lookup flag = some b → isEnabled flags flag = b) := by
  constructor
  · intro h
    have hnone : flags.lookup flag = none := by
      apply lookup_of_keys_ne
      intro p hp hpj
      obtain ⟨a, b⟩ := p
      cases hpj
      exact h b hp
    simp [isEnabled, hnone]
  · intro b hb
    simp [isEnabled, hb]

/-- Witness for C4: an unrecognized name reads `false`, a stored name reads
its stored value. -/
theorem c4_isEnabled_total_witness :
    isEnabled [("ENABLE_PWA", true)] "UNKNOWN_FLAG" = false ∧
    isEnabled [("ENABLE_PWA", true)] "ENABLE_PWA" = true :=
  ⟨(c4_isEnabled_total [("ENABLE_PWA", true)] "UNKNOWN_FLAG").1 (by decide),
   (c4_isEnabled_total [("ENABLE_PWA", true)] "ENABLE_PWA").2 true (by decide)⟩

/-- C5: read-after-write — immediately after `updateFlag flag v`,
`isEnabled flag` returns `v`. -/
theorem c5_read_after_write (flags : FlagObj) (flag : String) (v : Bool) :
    isEnabled (updateFlag flags flag v) flag = v := by
  simp [isEnabled, updateFlag, lookup_setKey_self]

/-- C9: frame property of `updateFlag` — every flag other than the updated
one keeps its stored value. -/
theorem c9_update_frame (flags : FlagObj) (flag : String) (v : Bool)
    (g : String) (h : g ≠ flag) :
    isEnabled (updateFlag flags flag v) g = isEnabled flags g := by
  simp [isEnabled, updateFlag, lookup_setKey_ne flags flag v g h]

/-- Witness for C9. -/
theorem c9_update_frame_witness :
    isEnabled (updateFlag [("ENABLE_PWA", true)] "ENABLE_ANALYTICS" true)
        "ENABLE_PWA" =
      isEnabled [("ENABLE_PWA", true)] "ENABLE_PWA" :=
  c9_update_frame [("ENABLE_PWA", true)] "ENABLE_ANALYTICS" true "ENABLE_PWA"
    (by decide)

/-- C10: an empty-string user identifier is falsy, so `isEnabledForUser`
returns exactly the base `isEnabled` value without consulting the hash. -/
theorem c10_empty_user_is_absent (flags : FlagObj) (flag : String) :
    isEnabledForUser flags flag (some []) = isEnabled flags flag := by
  simp [isEnabledForUser, truthyUserId]

/-- C6: `getAllFlags` returns a fresh snapshot object equal to the current
flag state, and a caller writing any property through the returned
reference leaves every subsequent `isEnabled` answer of the manager
unchanged. -/
theorem c6_getAllFlags_defensive (s : ManagerState) (k : String) (v : Bool)
    (g : String) (h : s.flagsRef < s.heap.length) :
    (getAllFlags s).2.heap.getD (getAllFlags s).1 [] = readFlags s ∧
    mgrIsEnabled (writeObj (getAllFlags s).2 (getAllFlags s).1 k v) g =
      mgrIsEnabled s g := by
  constructor
  · show (s.heap ++ [readFlags s]).getD s.heap.length [] = readFlags s
    rw [List.getD_eq_getElem?_getD, List.getElem?_concat_length]
    rfl
  · unfold mgrIsEnabled
    congr 1
    show ((s.heap ++ [readFlags s]).set s.heap.length
        (setKey ((s.heap ++ [readFlags s]).getD s.heap.length []) k v)).getD
          s.flagsRef []
      = s.heap.getD s.flagsRef []
    rw [List.getD_eq_getElem?_getD, List.getD_eq_getElem?_getD,
      List.getElem?_set_ne (Nat.ne_of_lt h).symm, List.getElem?_append]
    simp [h]

/-- Witness for C6 on a one-object heap. -/
theorem c6_getAllFlags_defensive_witness :
    (getAllFlags ⟨[[("ENABLE_PWA", true)]], 0⟩).2.heap.getD
        (getAllFlags ⟨[[("ENABLE_PWA", true)]], 0⟩).1 [] =
      readFlags ⟨[[("ENABLE_PWA", true)]], 0⟩ ∧
    mgrIsEnabled (writeObj (getAllFlags ⟨[[("ENABLE_PWA", true)]], 0⟩).2
        (getAllFlags ⟨[[("ENABLE_PWA", true)]], 0⟩).1 "ENABLE_PWA" false)
        "ENABLE_PWA" =
      mgrIsEnabled ⟨[[("ENABLE_PWA", true)]], 0⟩ "ENABLE_PWA" :=
  c6_getAllFlags_defensive ⟨[[("ENABLE_PWA", true)]], 0⟩ "ENABLE_PWA" false
    "ENABLE_PWA" (by decide)

/-- C7 counterexample: with `NEXT_PUBLIC_FEATURE_ENABLE_PWA` present but
equal to the empty string, the claim's override rule ("any other present
value yields false") makes `ENABLE_PWA` false, yet the code yields no
override and the flag initializes to its default `true`. -/
theorem c7_counterexample :
    penvEmptyOverride "NEXT_PUBLIC_FEATURE_ENABLE_PWA" = some "" ∧
    claimLayeredValue penvEmptyOverride "ENABLE_PWA" = false ∧
    isEnabled (parseFeatureFlags penvEmptyOverride) "ENABLE_PWA" = true :=
  ⟨rfl, by decide, by decide⟩

/-- C7 as amended: every recognized flag initializes to the schema default,
overridden by the tier bundle, overridden by the environment-variable
override in which the primary variable falls through to the secondary when
it is absent or empty (JavaScript `||`), a surviving value overriding with
`value === "true"`, and no override otherwise. -/
theorem c7_amended_layering (penv : String → Option String) (k : String)
    (hk : k ∈ flagNames) :
    (parseFeatureFlags penv).lookup k = some (codeLayeredValue penv k) := by
  have hnd : ((overridesObj penv).map Prod.fst).Nodup := by
    have hsub := keys_filterMap_keyed_sublist flagNames (envVarValue penv)
      (fun _ v => v == "true")
    exact hsub.nodup flagNames_nodup
  have hov : (overridesObj penv).lookup k
      = (envVarValue penv k).map (fun v => v == "true") := by
    unfold overridesObj
    rw [lookup_filterMap_keyed flagNames (envVarValue penv)
      (fun _ v => v == "true") k flagNames_nodup]
    simp [hk]
  unfold parseFeatureFlags zodParse
  rw [lookup_map_keyed]
  simp only [hk, if_true]
  rw [lookup_spreadMerge (overridesObj penv) (getEnvironmentFlags penv) k hnd,
    hov]
  unfold codeLayeredValue
  cases hv : envVarValue penv k with
  | some v => simp
  | none =>
    simp only [Option.map_none]
    cases he : (getEnvironmentFlags penv).lookup k with
    | some b => simp
    | none => simp

/-- Witness for the amended C7 at the concrete environment of the
counterexample. -/
theorem c7_amended_layering_witness :
    (parseFeatureFlags penvEmptyOverride).lookup "ENABLE_PWA" =
      some (codeLayeredValue penvEmptyOverride "ENABLE_PWA") :=
  c7_amended_layering penvEmptyOverride "ENABLE_PWA" (by decide)

/-- C8: after initialization every recognized flag name has a defined
boolean value, and the invariant survives any sequence of `updateFlag`
calls. -/
theorem c8_totality_invariant (penv : String → Option String)
    (updates : List (String × Bool)) (k : String) (hk : k ∈ flagNames) :
    ((applyUpdates (parseFeatureFlags penv) updates).lookup k).isSome = true := by
  have hinit : ((parseFeatureFlags penv).lookup k).isSome = true := by
    unfold parseFeatureFlags zodParse
    rw [lookup_map_keyed]
    simp [hk]
  suffices hpres : ∀ (st : FlagObj) (us : List (String × Bool)),
      (st.lookup k).isSome = true →
      ((applyUpdates st us).lookup k).isSome = true by
    exact hpres _ updates hinit
  intro st us
  induction us generalizing st with
  | nil => intro h; exact h
  | cons u us ih =>
    intro h
    exact ih (updateFlag st u.1 u.2) (lookup_isSome_setKey st u.1 u.2 k h)

/-- Witness for C8 with a default environment and one update. -/
theorem c8_totality_invariant_witness :
    ((applyUpdates (parseFeatureFlags fun _ => none)
        [("ENABLE_PWA", false)]).lookup "ENABLE_PWA").isSome = true :=
  c8_totality_invariant (fun _ => none) [("ENABLE_PWA", false)] "ENABLE_PWA"
    (by decide)

end JobpayFlags
